import Mathlib

/-!
Shallow embedding of `src/economist.py` (the economist-ebook pipeline).

External collaborators are modelled as oracle parameters, following the
spec's black-box boundary: HTTP fetch (`fetchHtml`, returning the body or a
fetch error), the HTML-to-text extraction step (`extract`: BeautifulSoup's
container lookup composed with the `newspaper` parse, returning the plain
text body, the body image URLs and the top-image URL — the empty string when
absent, as `newspaper` reports it), the md5 hex digest (`md5hex`) and the
fetch-and-decode of an image (`fetchImage`, `none` when the bytes are not a
decodable image). Durable state is explicit: the sqlite cache is a
`Database` (an association list keyed by url), the `images/` directory is an
`ImgState` (saved files with their pixel dimensions, plus a counter probing
how often the network fetch + decode actually ran).

Numeric operations that Python performs on floats (`round`, `int`, `/`) are
modelled by their exact rational values, expressed in integer arithmetic:
all quantities involved are nonnegative, `round(num/den)` with Python's
round-half-to-even is `roundHalfEven num den`, and `int(x)` for a
nonnegative rational `x = num/den` is the floor `num / den` (Nat division).
So the source's `round(i * rate)` with `rate = P / (N + 1)` is
`roundHalfEven (i * P) (N + 1)`, and `int(h / (w / maxWidth))` is
`h * maxWidth / w`.
-/

namespace Econ

/-- Python `round` applied to the exact rational `num / den` (`den > 0`):
round half to even (banker's rounding), on nonnegative values. -/
def roundHalfEven (num den : ℕ) : ℕ :=
  if 2 * (num % den) < den then num / den
  else if den < 2 * (num % den) then num / den + 1
  else if num / den % 2 = 0 then num / den else num / den + 1

/-- Python `list.insert(pos, x)` for a nonnegative `pos`: insert before index
`pos`, appending when `pos` is past the end (`take`/`drop` clamp it). -/
def listInsert (l : List α) (pos : ℕ) (x : α) : List α :=
  l.take pos ++ x :: l.drop pos

/-- Python `str.split('\n')`, on the character list: split at every newline,
keeping empty pieces; the empty string yields `[[]]`. -/
def splitNl : List Char → List (List Char)
  | [] => [[]]
  | c :: cs =>
    match splitNl cs with
    | [] => [[]]
    | p :: ps => if c = '\n' then [] :: p :: ps else (c :: p) :: ps

/-- Python `text.split('\n')` as a list of strings. -/
def splitLines (s : String) : List String :=
  (splitNl s.data).map (fun l => ⟨l⟩)

/-! ## Database (the sqlite url → html cache, lines 18-61) -/

/-- The error raised by a cache insert on an already-present url (sqlite's
`IntegrityError` on the `url` primary key). -/
def dupKeyError : String := "DuplicateKey: UNIQUE constraint failed: articles.url"

/-- The `articles` table: rows `(url, html)` with `url` the primary key.
List order is insertion order; the primary-key invariant is enforced by
`Database.set` refusing a second insert of the same url. -/
structure Database where
  entries : List (String × String)
deriving DecidableEq, Repr

/-- Row lookup by exact url (`SELECT html FROM articles WHERE url=?`,
first matching row). -/
def Database.lookup (db : Database) (url : String) : Option String :=
  (db.entries.find? (fun e => e.1 == url)).map (fun e => e.2)

/-- The try/except body of `Database.get`: given the outcome of the row
fetch (`.error` = storage error), return `row[0]` when a row was found and
`None` otherwise; a storage error is caught, logged and turned into `None`
rather than raised to the caller. -/
def Database.getResult (r : Except String (Option String)) : Option String :=
  match r with
  | .ok (some v) => some v
  | .ok none => none
  | .error _ => none

/-- `Database.get` (lines 35-50) in the fault-free run: the row fetch is the
pure lookup. -/
def Database.get (db : Database) (url : String) : Option String :=
  Database.getResult (.ok (db.lookup url))

/-- `Database.set` (lines 52-61): `INSERT INTO articles(url, html)`; the
primary key makes a second insert of the same url fail. The source has no
handler here, so the failure propagates to the caller. -/
def Database.set (db : Database) (url html : String) : Except String Database :=
  if db.entries.any (fun e => e.1 == url) then .error dupKeyError
  else .ok ⟨db.entries ++ [(url, html)]⟩

/-! ## Image store (`download_image`, lines 257-279) -/

/-- A decoded image, reduced to its pixel dimensions (`image.size`). -/
structure PImg where
  w : ℕ
  h : ℕ
deriving DecidableEq, Repr

/-- The `images/` directory: saved files as `(path, width, height)`, plus a
counter of how many times the network fetch + decode actually ran. -/
structure ImgState where
  files : List (String × ℕ × ℕ)
  fetchCount : ℕ
deriving DecidableEq, Repr

/-- `os.path.basename`: the component after the last `/`. -/
def basename (s : String) : String :=
  ⟨(s.data.reverse.takeWhile (fun c => c ≠ '/')).reverse⟩

/-- The deterministic target path
`'images/{}-{}'.format(md5(url).hexdigest(), basename(url))` (lines 260-262). -/
def imageFilename (md5hex : String → String) (u : String) : String :=
  "images/" ++ md5hex u ++ "-" ++ basename u

/-- The resize step of `download_image` (lines 270-276): when the width
exceeds `maxWidth` the new size is `(max_width, int(h / ratio))` with
`ratio = w / max_width` — note the `int` truncation, which on these
nonnegative exact rationals is `h * maxWidth / w` (Nat division); an image
no wider than `maxWidth` is left untouched. -/
def resizeDims (w h maxWidth : ℕ) : ℕ × ℕ :=
  if maxWidth < w then (maxWidth, h * maxWidth / w)
  else (w, h)

/-- `download_image(image_url, max_width=400)` (lines 257-279): compute the
deterministic filename; if that path already exists on disk return it
immediately (no fetch, no decode); otherwise fetch and decode (`.error`
when the bytes are not a decodable image), resize when too wide, and save.
The fetch counter increments exactly on the fetch-and-save path. -/
def downloadImage (md5hex : String → String) (fetchImage : String → Option PImg)
    (u : String) (maxWidth : ℕ) (st : ImgState) : Except String (String × ImgState) :=
  let filename := imageFilename md5hex u
  if st.files.any (fun f => f.1 == filename) then .ok (filename, st)
  else
    match fetchImage u with
    | none => .error "ImageDecodeError"
    | some img =>
        let dims := resizeDims img.w img.h maxWidth
        .ok (filename, ⟨(filename, dims) :: st.files, st.fetchCount + 1⟩)

/-! ## Articles (`Article`, lines 64-111) -/

/-- The centered image block `'<center><img src="{}" /></center>'.format(filename)`. -/
def imgTag (filename : String) : String :=
  "<center><img src=\"" ++ filename ++ "\" /></center>"

/-- The black-box extraction result (BeautifulSoup container lookup composed
with the `newspaper` parse): plain text body, body image URLs in order, and
the top image URL — the empty string when there is no top image, which is
how `newspaper`'s `top_image` reports absence. -/
structure Extracted where
  text : String
  images : List String
  topImage : String
deriving DecidableEq, Repr

/-- The external collaborators of a build, as oracles. -/
structure Env where
  fetchHtml : String → Except String String
  extract : String → Option Extracted
  md5hex : String → String
  fetchImage : String → Option PImg

/-- An article: created with url+title during discovery; `html`, `images`
and `content` start out falsy and are filled in by a successful build. -/
structure Article where
  url : String
  title : String
  html : String
  images : List String
  content : String
deriving DecidableEq, Repr

/-- `Article.download` (lines 72-76): take the cached html; when it is falsy
(`None` from a miss, or the empty string) fetch the page and insert it into
the cache. A fetch error or a duplicate-key insert failure propagates (the
source has no handler here); the database is returned unchanged then. -/
def Article.download (fetchHtml : String → Except String String) (db : Database)
    (a : Article) : (Except String Article) × Database :=
  let cached := (db.get a.url).getD ""
  if cached ≠ "" then (.ok { a with html := cached }, db)
  else
    match fetchHtml a.url with
    | .error e => (.error e, db)
    | .ok body =>
      match db.set a.url body with
      | .error e => (.error e, db)
      | .ok db2 => (.ok { a with html := body }, db2)

/-- The image-interleaving loop of `Article.build` (lines 102-108): for the
image at 1-based index `i`, insert its centered block at
`pos = round(i * rate) + i` where `rate = P / (N + 1)` is fixed from the
original paragraph count `P` and the non-top image count `N`; each image is
downloaded as it is reached (threading the image store) and each insertion
lands in the already-modified paragraph list. A download error propagates. -/
def buildImagesLoop (env : Env) (P N : ℕ) :
    ℕ → List String → List String → ImgState → List String →
    Except String (List String × List String × ImgState)
  | _, paragraphs, acc, st, [] => .ok (paragraphs, acc, st)
  | i, paragraphs, acc, st, img :: rest =>
    let pos := roundHalfEven (i * P) (N + 1) + i
    match downloadImage env.md5hex env.fetchImage img 400 st with
    | .error e => .error e
    | .ok (fn, st1) =>
        buildImagesLoop env P N (i + 1)
          (listInsert paragraphs pos (imgTag fn)) (acc ++ [fn]) st1 rest

/-- `Article.build` (lines 78-111): download (via the cache), extract, start
the content with the `<h1>` title header, prepend the top image block when a
top image exists, interleave the remaining images (which excludes exactly
the values equal to `top_image` from the body image list), and join the
paragraphs with `<br>`. Any error leaves the article unchanged (its
`content` still empty) and propagates to the caller. -/
def Article.build (env : Env) (db : Database) (st : ImgState) (a : Article) :
    (Except String Article) × Database × ImgState :=
  match Article.download env.fetchHtml db a with
  | (.error e, db1) => (.error e, db1, st)
  | (.ok a1, db1) =>
    match env.extract a1.html with
    | none => (.error "ExtractionError", db1, st)
    | some ex =>
      let headerContent := "<h1>" ++ a1.title ++ "</h1>"
      let topStep : Except String (String × List String × ImgState) :=
        if ex.topImage = "" then .ok ("", [], st)
        else
          match downloadImage env.md5hex env.fetchImage ex.topImage 400 st with
          | .error e => .error e
          | .ok (fn, st1) => .ok (imgTag fn, [fn], st1)
      match topStep with
      | .error e => (.error e, db1, st)
      | .ok (topPart, topImgs, st1) =>
        let images := ex.images.filter (fun i => i != ex.topImage)
        let paragraphs := splitLines ex.text
        match buildImagesLoop env paragraphs.length images.length 1 paragraphs [] st1 images with
        | .error e => (.error e, db1, st1)
        | .ok (paras2, fns, st2) =>
          (.ok ⟨a1.url, a1.title, a1.html, a1.images ++ topImgs ++ fns,
                headerContent ++ topPart ++ String.intercalate "<br>" paras2⟩,
           db1, st2)

/-! ## Sections (`Section`, lines 114-127) -/

/-- A titled group of articles, in issue-index order. -/
structure Section where
  title : String
  articles : List Article
deriving DecidableEq, Repr

/-- The loop of `Section.build` (lines 119-124): build each article in list
order; a successful build replaces the article, a failed build is caught and
logged and leaves the article as it was, and the loop continues either way. -/
def Section.buildArticles (env : Env) :
    Database → ImgState → List Article → List Article × Database × ImgState
  | db, st, [] => ([], db, st)
  | db, st, a :: rest =>
    match Article.build env db st a with
    | (.ok a2, db2, st2) =>
        let r := Section.buildArticles env db2 st2 rest
        (a2 :: r.1, r.2)
    | (.error _, db2, st2) =>
        let r := Section.buildArticles env db2 st2 rest
        (a :: r.1, r.2)

/-- `Section.build`: the article loop, keeping the section title. -/
def Section.build (env : Env) (db : Database) (st : ImgState) (s : Section) :
    Section × Database × ImgState :=
  let r := Section.buildArticles env db st s.articles
  (⟨s.title, r.1⟩, r.2)

/-! ## Book assembly (`Economist.build`, lines 183-239) -/

/-- A content document of the book (`epub.EpubHtml`):
`file_name='{}.xhtml'.format(article.title)`. -/
structure BookItem where
  title : String
  fileName : String
  content : String
deriving DecidableEq, Repr

/-- The file name given to a successful article's document (line 211). -/
def articleFileName (title : String) : String := title ++ ".xhtml"

/-- The per-section item list (lines 203-223): articles with empty `content`
are skipped (logged), each remaining article becomes a document named after
its title. -/
def sectionItems (articles : List Article) : List BookItem :=
  articles.filterMap (fun a =>
    if a.content = "" then none
    else some ⟨a.title, articleFileName a.title, a.content⟩)

/-- Python's error for `items[0]` on an empty list. -/
def indexError : String := "IndexError: list index out of range"

/-- The assembled book: the spine (document ids in reading order) and the
table of contents (per section: title, href of the first item, item file
names). -/
structure Book where
  spine : List String
  toc : List (String × String × List String)
deriving DecidableEq, Repr

/-- The section loop of `Economist.build` (lines 202-229): for each section
in order, collect its items, then unconditionally evaluate `items[0]` for
the table-of-contents entry — which raises `IndexError` when no article of
the section built successfully — and extend the spine with the items. -/
def assembleSections :
    List Section → Except String (List (String × String × List String) × List String)
  | [] => .ok ([], [])
  | s :: rest =>
    let items := sectionItems s.articles
    match items with
    | [] => .error indexError
    | first :: _ =>
      match assembleSections rest with
      | .error e => .error e
      | .ok (toc, docs) =>
          .ok ((s.title, first.fileName, items.map (fun it => it.fileName)) :: toc,
               items.map (fun it => it.fileName) ++ docs)

/-- The book assembly of `Economist.build` (lines 183-239), after all
sections were built: spine = optional cover, then `nav`, then all documents
in section/article order; toc mirrors the section nesting. An `IndexError`
from an all-failed section propagates and no book is produced. -/
def assemble (coverImg : Option String) (sections : List Section) :
    Except String Book :=
  match assembleSections sections with
  | .error e => .error e
  | .ok (toc, docs) =>
      .ok ⟨(match coverImg with | some _ => ["cover"] | none => []) ++ "nav" :: docs, toc⟩

/-! ## The spec's reading of the interleaving formula (for C1) -/

/-- The insertion positions the spec prescribes, from index `i` on:
`round(i * rate) + i` with `rate = P / (N + 1)`, for `n` images. -/
def posFrom (P N : ℕ) : ℕ → ℕ → List ℕ
  | _, 0 => []
  | i, n + 1 => (roundHalfEven (i * P) (N + 1) + i) :: posFrom P N (i + 1) n

/-- All `N` insertion positions, for 1-based image indices. -/
def insertPositions (P N : ℕ) : List ℕ := posFrom P N 1 N

/-- Sequential insertion: each block lands at its position in the paragraph
list as already modified by the previous insertions. -/
def applyInserts (ps : List String) (l : List (ℕ × String)) : List String :=
  l.foldl (fun acc pt => listInsert acc pt.1 pt.2) ps


/-! ## Concrete fixtures for witnesses and counterexamples -/

/-- An environment where every image fetch decodes to a 10×10 picture and
the md5 digest is the constant `"h"`; pages and extraction are unused. -/
def envInterleave : Env :=
  ⟨fun _ => .error "unused", fun _ => none, fun _ => "h", fun _ => some ⟨10, 10⟩⟩

/-- An environment whose page fetch always succeeds with body `"BODY"`. -/
def envDupKey : Env :=
  ⟨fun _ => .ok "BODY", fun _ => none, fun _ => "h", fun _ => none⟩

/-- An environment where fetching `u2` fails with a fetch error, every
other page fetch returns `"html"`, and extraction yields the one-paragraph
text `"text"` with no images. -/
def envSectionDemo : Env :=
  ⟨fun u => if u == "u2" then .error "FetchError" else .ok "html",
   fun _ => some ⟨"text", [], ""⟩, fun _ => "h", fun _ => none⟩

/-! ## Cache lemmas -/

theorem get_eq_lookup (db : Database) (url : String) : db.get url = db.lookup url := by
  cases h : db.lookup url <;> simp [Database.get, Database.getResult, h]

theorem lookup_eq_none_of_get (db : Database) (url : String) (h : db.get url = none) :
    db.entries.find? (fun e => e.1 == url) = none := by
  rw [get_eq_lookup] at h
  unfold Database.lookup at h
  cases hf : db.entries.find? (fun e => e.1 == url) with
  | none => rfl
  | some e => rw [hf] at h; simp at h

theorem set_ok_of_get_none (db : Database) (url html : String) (h : db.get url = none) :
    db.set url html = .ok ⟨db.entries ++ [(url, html)]⟩ := by
  have hall := List.find?_eq_none.mp (lookup_eq_none_of_get db url h)
  have hany : ¬ (db.entries.any (fun e => e.1 == url) = true) := by
    simp only [List.any_eq_true, not_exists, not_and]
    intro x hx
    simpa using hall x hx
  unfold Database.set
  rw [if_neg hany]

theorem get_append_new (l : List (String × String)) (url html : String)
    (h : l.find? (fun e => e.1 == url) = none) :
    (Database.mk (l ++ [(url, html)])).get url = some html := by
  rw [get_eq_lookup]
  unfold Database.lookup
  simp [List.find?_append, h]

theorem set_dup_of_mem (db : Database) (url html v : String) (h : (url, v) ∈ db.entries) :
    db.set url html = .error dupKeyError := by
  unfold Database.set
  rw [if_pos (List.any_eq_true.mpr ⟨(url, v), h, by simp⟩)]

theorem mem_of_get_some (db : Database) (url v : String) (h : db.get url = some v) :
    (url, v) ∈ db.entries := by
  rw [get_eq_lookup] at h
  unfold Database.lookup at h
  cases hf : db.entries.find? (fun e => e.1 == url) with
  | none => rw [hf] at h; simp at h
  | some e =>
    rw [hf] at h
    have hp : (e.1 == url) = true := List.find?_some (p := fun e : String × String => e.1 == url) hf
    have hmem := List.mem_of_find?_eq_some hf
    have h1 : e.1 = url := by simpa using hp
    have h2 : e.2 = v := by simpa using h
    have he : e = (url, v) := Prod.ext h1 h2
    rw [he] at hmem
    exact hmem

/-! ## Article.download lemmas -/

theorem download_of_dup (fetchHtml : String → Except String String) (db : Database)
    (a : Article) (body : String) (hget : db.get a.url = some "")
    (hfetch : fetchHtml a.url = .ok body) :
    Article.download fetchHtml db a = (.error dupKeyError, db) := by
  have hmem : (a.url, "") ∈ db.entries := mem_of_get_some db a.url "" hget
  simp [Article.download, hget, hfetch, set_dup_of_mem db a.url body "" hmem]

theorem download_of_miss (fetchHtml : String → Except String String) (db : Database)
    (a : Article) (body : String) (hget : db.get a.url = none)
    (hfetch : fetchHtml a.url = .ok body) :
    Article.download fetchHtml db a =
      (.ok ⟨a.url, a.title, body, a.images, a.content⟩, ⟨db.entries ++ [(a.url, body)]⟩) := by
  simp [Article.download, hget, hfetch, set_ok_of_get_none db a.url body hget]

/-! ## Claim theorems: the cache and error propagation -/

/-- C5: a url not yet in the cache reads as absent; after `set` it reads
back exactly the stored html; a second `set` of the same url fails with the
duplicate-key error and leaves the first stored value unchanged. -/
theorem C5_cache_get_set (db : Database) (url html : String) (h : db.get url = none) :
    ∃ db2, db.set url html = .ok db2 ∧ db2.get url = some html ∧
      ∀ html2, db2.set url html2 = .error dupKeyError ∧ db2.get url = some html := by
  refine ⟨⟨db.entries ++ [(url, html)]⟩, set_ok_of_get_none db url html h, ?_, ?_⟩
  · exact get_append_new db.entries url html (lookup_eq_none_of_get db url h)
  · intro html2
    refine ⟨set_dup_of_mem _ url html2 html ?_,
            get_append_new db.entries url html (lookup_eq_none_of_get db url h)⟩
    simp

theorem C5_cache_get_set_witness :
    ∃ db2, (Database.mk []).set "u" "h" = .ok db2 ∧ db2.get "u" = some "h" ∧
      ∀ html2, db2.set "u" html2 = .error dupKeyError ∧ db2.get "u" = some "h" :=
  C5_cache_get_set ⟨[]⟩ "u" "h" rfl

/-- C8: a storage error during the lookup is caught and yields absent
rather than an exception, and a hit is an exact-url lookup: the returned
value is stored under that very url. -/
theorem C8_get_error_absent :
    (∀ e : String, Database.getResult (.error e) = none) ∧
    (∀ (db : Database) (url v : String), db.get url = some v → (url, v) ∈ db.entries) :=
  ⟨fun _ => rfl, fun db url v h => mem_of_get_some db url v h⟩

theorem C8_get_error_absent_witness :
    Database.getResult (.error "disk failure") = none ∧
    ("u", "h") ∈ (Database.mk [("u", "h")]).entries :=
  ⟨C8_get_error_absent.1 "disk failure",
   C8_get_error_absent.2 ⟨[("u", "h")]⟩ "u" "h" rfl⟩

/-- C9: a falsy cached value (the empty string) is treated as a miss: the
article is re-fetched and a second insert is attempted for the url, which
fails on the primary key and propagates; a genuine miss with a non-empty
fetched body stores that body exactly once. -/
theorem C9_falsy_cache :
    (∀ (fetchHtml : String → Except String String) (db : Database) (a : Article) (body : String),
        db.get a.url = some "" → fetchHtml a.url = .ok body →
        Article.download fetchHtml db a = (.error dupKeyError, db)) ∧
    (∀ (fetchHtml : String → Except String String) (db : Database) (a : Article) (body : String),
        db.get a.url = none → fetchHtml a.url = .ok body → body ≠ "" →
        Article.download fetchHtml db a =
          (.ok ⟨a.url, a.title, body, a.images, a.content⟩, ⟨db.entries ++ [(a.url, body)]⟩)) :=
  ⟨fun f db a b h1 h2 => download_of_dup f db a b h1 h2,
   fun f db a b h1 h2 _ => download_of_miss f db a b h1 h2⟩

theorem C9_falsy_cache_witness :
    Article.download (fun _ => .ok "BODY") ⟨[("u", "")]⟩ ⟨"u", "T", "", [], ""⟩
      = (.error dupKeyError, ⟨[("u", "")]⟩) ∧
    Article.download (fun _ => .ok "BODY") ⟨[]⟩ ⟨"u", "T", "", [], ""⟩
      = (.ok ⟨"u", "T", "BODY", [], ""⟩, ⟨[("u", "BODY")]⟩) :=
  ⟨C9_falsy_cache.1 _ ⟨[("u", "")]⟩ ⟨"u", "T", "", [], ""⟩ "BODY" rfl rfl,
   C9_falsy_cache.2 _ ⟨[]⟩ ⟨"u", "T", "", [], ""⟩ "BODY" rfl rfl (by decide)⟩

/-- C3 fails on the code: with the url cached as the empty string, the page
is re-fetched and re-inserted, `Database.set` fails on the primary key with
no handler at the cache boundary, and the article's build aborts with the
propagated error instead of continuing — its content is never set. -/
theorem C3_counterexample :
    Article.build envDupKey ⟨[("u", "")]⟩ ⟨[], 0⟩ ⟨"u", "T", "", [], ""⟩
      = (.error dupKeyError, ⟨[("u", "")]⟩, ⟨[], 0⟩) := rfl

/-- C3 amended: the duplicate-key failure of the cache write propagates out
of `Database.set` and aborts the article's build, leaving its content
empty; it is caught and logged one level up by `Section.build`, which
carries on, so the run survives but the article does not build on that
run. -/
theorem C3_amended (env : Env) (db : Database) (st : ImgState) (a : Article)
    (body t : String) (hget : db.get a.url = some "")
    (hfetch : env.fetchHtml a.url = .ok body) :
    Article.build env db st a = (.error dupKeyError, db, st) ∧
    Section.build env db st ⟨t, [a]⟩ = (⟨t, [a]⟩, db, st) := by
  have hd := download_of_dup env.fetchHtml db a body hget hfetch
  have hb : Article.build env db st a = (.error dupKeyError, db, st) := by
    unfold Article.build
    rw [hd]
  exact ⟨hb, by simp [Section.build, Section.buildArticles, hb]⟩

theorem C3_amended_witness :
    Article.build envDupKey ⟨[("u", "")]⟩ ⟨[], 0⟩ ⟨"u", "T", "", [], ""⟩
      = (.error dupKeyError, ⟨[("u", "")]⟩, ⟨[], 0⟩) ∧
    Section.build envDupKey ⟨[("u", "")]⟩ ⟨[], 0⟩ ⟨"News", [⟨"u", "T", "", [], ""⟩]⟩
      = (⟨"News", [⟨"u", "T", "", [], ""⟩]⟩, ⟨[("u", "")]⟩, ⟨[], 0⟩) :=
  C3_amended envDupKey ⟨[("u", "")]⟩ ⟨[], 0⟩ ⟨"u", "T", "", [], ""⟩ "BODY" "News" rfl rfl

/-- C2: the claim matches the spec's stated intent but fails on the code —
a section in which no article built successfully makes the book assembly
evaluate `items[0]` on an empty list, raising `IndexError`, so no book at
all is produced instead of the section being left out; with a successful
article the same assembly produces the book. -/
theorem C2_all_failed_section :
    assemble none [⟨"Briefing", [⟨"u1", "T1", "<x>", [], ""⟩, ⟨"u2", "T2", "<x>", [], ""⟩]⟩]
      = .error indexError ∧
    assemble none [⟨"S", [⟨"u1", "T1", "<x>", [], "<h1>T1</h1>body"⟩]⟩]
      = .ok ⟨["nav", "T1.xhtml"], [("S", "T1.xhtml", ["T1.xhtml"])]⟩ :=
  ⟨rfl, rfl⟩

/-- C4 fails on the code: the resize uses `int` truncation, not `round` —
an 800×3 image with `maxWidth = 400` is persisted as 400×1, while the
claimed height `round(3 / (800/400)) = round(1.5)` is 2 under Python's
round-half-to-even. -/
theorem C4_counterexample :
    downloadImage (fun _ => "h") (fun _ => some ⟨800, 3⟩) "a.jpg" 400 ⟨[], 0⟩
      = .ok ("images/h-a.jpg", ⟨[("images/h-a.jpg", 400, 1)], 1⟩) ∧
    roundHalfEven (3 * 400) 800 = 2 :=
  ⟨rfl, by decide⟩

/-- C4 amended: on a cache miss a decodable image is persisted at the
deterministic path with `resizeDims` dimensions: a too-wide image gets
width exactly `maxWidth` and the `int`-truncated height
`int(h / (w / maxWidth)) = h * maxWidth / w` (floor, not round); an image
no wider than `maxWidth` is persisted unresized; in particular an 800-wide
image with `maxWidth = 400` gets height `⌊h / 2⌋`. -/
theorem C4_amended (md5hex : String → String) (fetchImage : String → Option PImg)
    (u : String) (maxW w h : ℕ) (st : ImgState)
    (hfetch : fetchImage u = some ⟨w, h⟩)
    (hnew : ¬ (st.files.any (fun f => f.1 == imageFilename md5hex u)) = true) :
    downloadImage md5hex fetchImage u maxW st
      = .ok (imageFilename md5hex u,
             ⟨(imageFilename md5hex u, resizeDims w h maxW) :: st.files, st.fetchCount + 1⟩) ∧
    (maxW < w → resizeDims w h maxW = (maxW, h * maxW / w)) ∧
    (w ≤ maxW → resizeDims w h maxW = (w, h)) ∧
    (∀ hh : ℕ, resizeDims 800 hh 400 = (400, hh / 2)) := by
  refine ⟨?_, fun hlt => by simp [resizeDims, hlt],
          fun hle => by simp [resizeDims, Nat.not_lt.mpr hle], fun hh => ?_⟩
  · simp only [downloadImage, hfetch]
    rw [if_neg hnew]
  · have h800 : (800 : ℕ) = 2 * 400 := rfl
    have hd : hh * 400 / 800 = hh / 2 := by
      rw [h800]
      exact Nat.mul_div_mul_right hh 2 (by norm_num)
    simp [resizeDims, hd]

theorem C4_amended_witness :
    downloadImage (fun _ => "h") (fun _ => some ⟨800, 3⟩) "a.jpg" 400 ⟨[], 0⟩
      = .ok (imageFilename (fun _ => "h") "a.jpg",
             ⟨[(imageFilename (fun _ => "h") "a.jpg", resizeDims 800 3 400)], 1⟩) ∧
    (400 < 800 → resizeDims 800 3 400 = (400, 3 * 400 / 800)) ∧
    (800 ≤ 400 → resizeDims 800 3 400 = (800, 3)) ∧
    (∀ hh : ℕ, resizeDims 800 hh 400 = (400, hh / 2)) := by
  have := C4_amended (fun _ => "h") (fun _ => some ⟨800, 3⟩) "a.jpg" 400 800 3
    ⟨[], 0⟩ rfl (by decide)
  simpa using this

/-- C6: `download_image` is idempotent: when the deterministic target path
already exists the call returns it immediately with the store untouched
(no fetch, no decode), and two successive calls return the identical path
with the fetch-and-decode counter advancing at most once over both calls
(the second call never fetches). -/
theorem C6_download_idempotent (md5hex : String → String)
    (fetchImage : String → Option PImg) (u : String) (maxW : ℕ) (st : ImgState) :
    ((st.files.any (fun f => f.1 == imageFilename md5hex u)) = true →
        downloadImage md5hex fetchImage u maxW st = .ok (imageFilename md5hex u, st)) ∧
    (∀ p1 st1, downloadImage md5hex fetchImage u maxW st = .ok (p1, st1) →
        downloadImage md5hex fetchImage u maxW st1 = .ok (p1, st1) ∧
        p1 = imageFilename md5hex u ∧
        st1.fetchCount ≤ st.fetchCount + 1) := by
  constructor
  · intro hmem
    simp only [downloadImage]
    rw [if_pos hmem]
  · intro p1 st1 h
    simp only [downloadImage] at h
    by_cases hmem : (st.files.any (fun f => f.1 == imageFilename md5hex u)) = true
    · rw [if_pos hmem] at h
      obtain ⟨hp, hst⟩ : imageFilename md5hex u = p1 ∧ st = st1 := by
        simpa using h
      subst hp
      subst hst
      refine ⟨?_, rfl, Nat.le_succ _⟩
      simp only [downloadImage]
      rw [if_pos hmem]
    · rw [if_neg hmem] at h
      cases hf : fetchImage u with
      | none => rw [hf] at h; exact absurd h (by simp)
      | some img =>
        rw [hf] at h
        obtain ⟨hp, hst⟩ :
            imageFilename md5hex u = p1 ∧
              ImgState.mk ((imageFilename md5hex u, resizeDims img.w img.h maxW) :: st.files)
                (st.fetchCount + 1) = st1 := by
          simpa using h
        subst hp
        subst hst
        refine ⟨?_, rfl, Nat.le_refl _⟩
        simp only [downloadImage]
        rw [if_pos (by simp)]

theorem C6_download_idempotent_witness :
    downloadImage (fun _ => "h") (fun _ => some ⟨10, 10⟩) "a.jpg" 400
        ⟨[("images/h-a.jpg", 10, 10)], 1⟩
      = .ok (imageFilename (fun _ => "h") "a.jpg", ⟨[("images/h-a.jpg", 10, 10)], 1⟩) ∧
    downloadImage (fun _ => "h") (fun _ => some ⟨10, 10⟩) "a.jpg" 400
        ⟨[("images/h-a.jpg", 10, 10)], 1⟩
      = .ok ("images/h-a.jpg", ⟨[("images/h-a.jpg", 10, 10)], 1⟩) ∧
    "images/h-a.jpg" = imageFilename (fun _ => "h") "a.jpg" ∧
    (1 : ℕ) ≤ 1 + 1 := by
  have h6 := C6_download_idempotent (fun _ => "h") (fun _ => some ⟨10, 10⟩) "a.jpg" 400
    ⟨[("images/h-a.jpg", 10, 10)], 1⟩
  exact ⟨h6.1 (by decide), h6.2 "images/h-a.jpg" ⟨[("images/h-a.jpg", 10, 10)], 1⟩ rfl⟩

/-! ## The interleaving loop characterization (C1) -/

theorem buildImagesLoop_ok (env : Env) (P N : ℕ) :
    ∀ (imgs : List String) (i : ℕ) (ps acc : List String) (st : ImgState)
      (ps' fns : List String) (st' : ImgState),
      buildImagesLoop env P N i ps acc st imgs = .ok (ps', fns, st') →
      ∃ newFns, fns = acc ++ newFns ∧ newFns.length = imgs.length ∧
        ps' = applyInserts ps ((posFrom P N i imgs.length).zip (newFns.map imgTag))
  | [], i, ps, acc, st, ps', fns, st', h => by
      obtain ⟨h1, h2, h3⟩ : ps = ps' ∧ acc = fns ∧ st = st' := by
        simpa [buildImagesLoop] using h
      exact ⟨[], by rw [← h2]; simp, rfl, by rw [← h1]; rfl⟩
  | img :: rest, i, ps, acc, st, ps', fns, st', h => by
      simp only [buildImagesLoop] at h
      cases hdl : downloadImage env.md5hex env.fetchImage img 400 st with
      | error e =>
        rw [hdl] at h
        exact absurd h (by simp)
      | ok pr =>
        obtain ⟨fn, st1⟩ := pr
        rw [hdl] at h
        obtain ⟨nf, hfns, hlen, hps⟩ :=
          buildImagesLoop_ok env P N rest (i + 1)
            (listInsert ps (roundHalfEven (i * P) (N + 1) + i) (imgTag fn))
            (acc ++ [fn]) st1 ps' fns st' h
        refine ⟨fn :: nf, ?_, by simp [hlen], ?_⟩
        · rw [hfns]; simp
        · rw [hps]; rfl

/-- C1: the interleaving loop of `Article.build` computes
`rate = P / (N + 1)` from the original paragraph count `P` and the non-top
image count `N`, and inserts the `i`-th image's centered block (1-based, in
original order) at position `round(i * rate) + i` of the evolving paragraph
list, each insertion applied before the next position is used; in
particular with `P = 6` and `N = 2` the positions are 3 and then 6, which
lands the blocks after `p3` and after `p5` of the evolving list. -/
theorem C1_interleaving :
    (∀ (env : Env) (ps imgs : List String) (st : ImgState)
       (ps' fns : List String) (st' : ImgState),
       buildImagesLoop env ps.length imgs.length 1 ps [] st imgs = .ok (ps', fns, st') →
       fns.length = imgs.length ∧
       ps' = applyInserts ps ((insertPositions ps.length imgs.length).zip (fns.map imgTag)))
    ∧ insertPositions 6 2 = [3, 6]
    ∧ (∀ p1 p2 p3 p4 p5 p6 f1 f2 : String,
       applyInserts [p1, p2, p3, p4, p5, p6] ((insertPositions 6 2).zip [imgTag f1, imgTag f2])
         = [p1, p2, p3, imgTag f1, p4, p5, imgTag f2, p6])
    ∧ buildImagesLoop envInterleave 6 2 1 ["p1", "p2", "p3", "p4", "p5", "p6"] [] ⟨[], 0⟩
        ["i1.jpg", "i2.jpg"]
        = .ok (["p1", "p2", "p3", imgTag "images/h-i1.jpg", "p4", "p5",
                imgTag "images/h-i2.jpg", "p6"],
               ["images/h-i1.jpg", "images/h-i2.jpg"],
               ⟨[("images/h-i2.jpg", 10, 10), ("images/h-i1.jpg", 10, 10)], 2⟩) := by
  refine ⟨?_, by decide, fun p1 p2 p3 p4 p5 p6 f1 f2 => rfl, rfl⟩
  intro env ps imgs st ps' fns st' h
  obtain ⟨nf, hfns, hlen, hps⟩ :=
    buildImagesLoop_ok env ps.length imgs.length imgs 1 ps [] st ps' fns st' h
  have hn : fns = nf := by simpa using hfns
  subst hn
  exact ⟨hlen, hps⟩

theorem C1_interleaving_witness :
    (["images/h-i1.jpg", "images/h-i2.jpg"] : List String).length
        = (["i1.jpg", "i2.jpg"] : List String).length ∧
    ["p1", "p2", "p3", imgTag "images/h-i1.jpg", "p4", "p5", imgTag "images/h-i2.jpg", "p6"]
      = applyInserts ["p1", "p2", "p3", "p4", "p5", "p6"]
          ((insertPositions 6 2).zip
            ((["images/h-i1.jpg", "images/h-i2.jpg"] : List String).map imgTag)) :=
  C1_interleaving.1 envInterleave ["p1", "p2", "p3", "p4", "p5", "p6"] ["i1.jpg", "i2.jpg"]
    ⟨[], 0⟩
    ["p1", "p2", "p3", imgTag "images/h-i1.jpg", "p4", "p5", imgTag "images/h-i2.jpg", "p6"]
    ["images/h-i1.jpg", "images/h-i2.jpg"]
    ⟨[("images/h-i2.jpg", 10, 10), ("images/h-i1.jpg", 10, 10)], 2⟩ rfl

/-! ## Section resilience (C7) -/

theorem download_ok_fields (fetchHtml : String → Except String String) (db : Database)
    (a a1 : Article) (db1 : Database)
    (h : Article.download fetchHtml db a = (.ok a1, db1)) :
    a1.url = a.url ∧ a1.title = a.title := by
  simp only [Article.download] at h
  split at h
  · rw [Prod.mk.injEq] at h
    obtain ⟨h1, _⟩ := h
    injection h1 with h2
    rw [← h2]
    exact ⟨rfl, rfl⟩
  · split at h
    · simp at h
    · split at h
      · simp at h
      · rw [Prod.mk.injEq] at h
        obtain ⟨h1, _⟩ := h
        injection h1 with h2
        rw [← h2]
        exact ⟨rfl, rfl⟩

theorem build_ok_fields (env : Env) (db : Database) (st : ImgState) (a a' : Article)
    (db' : Database) (st' : ImgState)
    (h : Article.build env db st a = (.ok a', db', st')) :
    a'.url = a.url ∧ a'.title = a.title := by
  simp only [Article.build] at h
  split at h
  · simp at h
  · rename_i a1 db1 heq
    have hfields := download_ok_fields env.fetchHtml db a a1 db1 heq
    split at h
    · simp at h
    · split at h
      · simp at h
      · split at h
        · simp at h
        · rw [Prod.mk.injEq] at h
          obtain ⟨h1, _⟩ := h
          injection h1 with h2
          rw [← h2]
          exact hfields

theorem buildArticles_urls (env : Env) :
    ∀ (arts : List Article) (db : Database) (st : ImgState),
      ((Section.buildArticles env db st arts).1).map (fun a => a.url)
          = arts.map (fun a => a.url) ∧
      ((Section.buildArticles env db st arts).1).map (fun a => a.title)
          = arts.map (fun a => a.title)
  | [], _, _ => ⟨rfl, rfl⟩
  | a :: rest, db, st => by
      simp only [Section.buildArticles]
      cases hb : Article.build env db st a with
      | mk res q =>
        obtain ⟨db2, st2⟩ := q
        cases res with
        | ok a2 =>
          have hf := build_ok_fields env db st a a2 db2 st2 hb
          have ih := buildArticles_urls env rest db2 st2
          exact ⟨by simp [hf.1, ih.1], by simp [hf.2, ih.2]⟩
        | error e =>
          have ih := buildArticles_urls env rest db2 st2
          exact ⟨by simp [ih.1], by simp [ih.2]⟩

/-- C7: the section build attempts every article exactly once, in list
order — the built section has one entry per input article, with its url and
title, the successful builds substituted and the failed ones left as they
were — and the loop never fails as a whole; concretely, with three articles
whose second fetch raises, the built section holds all three, the second
with empty content and the first and third fully built. -/
theorem C7_section_resilience :
    (∀ (env : Env) (db : Database) (st : ImgState) (arts : List Article),
        ((Section.buildArticles env db st arts).1).map (fun a => a.url)
            = arts.map (fun a => a.url) ∧
        ((Section.buildArticles env db st arts).1).map (fun a => a.title)
            = arts.map (fun a => a.title)) ∧
    Section.build envSectionDemo ⟨[]⟩ ⟨[], 0⟩
        ⟨"S", [⟨"u1", "T1", "", [], ""⟩, ⟨"u2", "T2", "", [], ""⟩, ⟨"u3", "T3", "", [], ""⟩]⟩
      = (⟨"S", [⟨"u1", "T1", "html", [], "<h1>T1</h1>text"⟩, ⟨"u2", "T2", "", [], ""⟩,
                ⟨"u3", "T3", "html", [], "<h1>T3</h1>text"⟩]⟩,
         ⟨[("u1", "html"), ("u3", "html")]⟩, ⟨[], 0⟩) :=
  ⟨fun env db st arts => buildArticles_urls env arts db st, by decide⟩

/-! ## Document file names (C10) -/

/-- C10: every successfully built article's content document is named
exactly its title followed by `.xhtml`; consequently two successful
articles with identical titles are assigned the same file name. -/
theorem C10_item_filename :
    (∀ (arts : List Article) (a : Article), a ∈ arts → a.content ≠ "" →
        (⟨a.title, a.title ++ ".xhtml", a.content⟩ : BookItem) ∈ sectionItems arts) ∧
    (∀ u1 u2 t h1 h2 c1 c2 : String, c1 ≠ "" → c2 ≠ "" →
        (sectionItems [⟨u1, t, h1, [], c1⟩, ⟨u2, t, h2, [], c2⟩]).map (fun it => it.fileName)
          = [t ++ ".xhtml", t ++ ".xhtml"]) := by
  constructor
  · intro arts a hmem hc
    refine List.mem_filterMap.mpr ⟨a, hmem, ?_⟩
    rw [if_neg hc]
    rfl
  · intro u1 u2 t h1 h2 c1 c2 hc1 hc2
    simp [sectionItems, articleFileName, hc1, hc2]

theorem C10_item_filename_witness :
    (⟨"T", "T" ++ ".xhtml", "C"⟩ : BookItem) ∈ sectionItems [⟨"u", "T", "h", [], "C"⟩] ∧
    (sectionItems [⟨"u1", "T", "h1", [], "C1"⟩,
                   ⟨"u2", "T", "h2", [], "C2"⟩]).map (fun it => it.fileName)
      = ["T" ++ ".xhtml", "T" ++ ".xhtml"] :=
  ⟨C10_item_filename.1 [⟨"u", "T", "h", [], "C"⟩] ⟨"u", "T", "h", [], "C"⟩ (by simp) (by decide),
   C10_item_filename.2 "u1" "u2" "T" "h1" "h2" "C1" "C2" (by decide) (by decide)⟩

end Econ
